import Mathlib

/-!
Verification of the BeatSwipe backend (azart44/backend).

This file gives a shallow embedding, in Lean 4, of the two Lambda handlers
the claims are about:

* `src/_BeatSwipeRecordAction.py` — recording a swipe and (on a right
  swipe) writing a match row;
* `src/BeatSwipeGetRecommendations.py` — the `ImprovedRecommender`
  scoring/selection pipeline and the role-gated handler around it.

Modelling conventions:

* DynamoDB tables are modelled as lookup functions `String → Option _`
  for read-only tables, and as lists of items for the tables the swipe
  handler writes (a `put_item` replaces the item with the same key).
* Python `float` arithmetic is modelled over `ℚ` (exact rational
  arithmetic); the literals 0.35, 0.8, ... become the exact rationals
  they denote.  `int(min(len, n) * 0.8)` is modelled as `(min len n) * 4 / 5`
  in `ℕ` (truncating division), which agrees with the float computation
  for all realistic batch sizes.
* Python dictionaries whose iteration order matters only through
  insertion order (`defaultdict`, `Counter`) are modelled as association
  lists updated in insertion order.
* Optional / absent dictionary entries become `Option`; Python
  truthiness of strings is modelled by an explicit `≠ ""` test where the
  source tests truthiness, and truthiness of numbers by `≠ 0`.
* `random.sample` is modelled by an abstract `sampler` parameter; the
  theorems assume only the two properties the library guarantees
  (the sample has the requested length, and its elements come from the
  input list).  Wall-clock time (`time.time()`) is modelled by an
  oracle `times : ℕ → ℚ` giving the clock value observed at the i-th
  iteration of the scoring loop, together with the `start` value.
-/

/-- Python `str.lower`, modelled over the character sequence (the
`userType` values occurring here are ASCII).  `String.toLower` itself does
not reduce inside the kernel, so the model maps `Char.toLower` over the
characters, which is extensionally the same function. -/
def pyLower (s : String) : String := ⟨s.data.map Char.toLower⟩

/-- A row of the `chordora-tracks` table, restricted to the attributes the
two handlers read.  `user_id` is the owner (beatmaker); it may be absent. -/
structure Track where
  track_id : String
  user_id : Option String
  genre : Option String
  mood : Option String
  bpm : Option ℚ
  isPrivate : Bool
  likes : ℕ
  plays : ℕ
  created_at : Option ℤ
  deriving Repr, DecidableEq

/-- A row of the `chordora-users` table, restricted to the attributes read
by the handlers. -/
structure UserProfile where
  userType : Option String
  musicGenres : List String
  musicalMood : Option String
  deriving Repr, DecidableEq

namespace RecordAction

/-- A row of the `chordora-beat-swipes` table, as written by
`_BeatSwipeRecordAction.lambda_handler`. -/
structure SwipeItem where
  swipe_id : String
  user_id : String
  track_id : String
  action : String
  timestamp : ℤ
  deriving Repr, DecidableEq

/-- A row of the `chordora-beat-matches` table, as written by
`_BeatSwipeRecordAction.lambda_handler`.  `beatmaker_id` is `none` when the
track item had no `user_id` attribute (the handler stores a null). -/
structure MatchItem where
  match_id : String
  artist_id : String
  beatmaker_id : Option String
  track_id : String
  timestamp : ℤ
  status : String
  deriving Repr, DecidableEq

/-- The mutable state the swipe handler touches: the swipes table and the
matches table.  Each list holds at most one item per key. -/
structure SwipeState where
  swipes : List SwipeItem
  match_items : List MatchItem
  deriving Repr, DecidableEq

/-- The request body of a swipe call: `trackId` and `action`, either of
which may be absent. -/
structure SwipeRequest where
  track_id : Option String
  action : Option String
  deriving Repr, DecidableEq

/-- The part of the HTTP response the claims are about. -/
structure ApiResponse where
  statusCode : ℕ
  message : String
  deriving Repr, DecidableEq

/-- Python string interpolation of a possibly-absent value:
`f"{x}"` renders `None` as the string `"None"`. -/
def pyStr : Option String → String
  | none => "None"
  | some s => s

/-- DynamoDB `put_item` on the swipes table: unconditionally replaces the
item with the same `swipe_id`. -/
def putSwipe (tbl : List SwipeItem) (it : SwipeItem) : List SwipeItem :=
  it :: tbl.filter (fun s => decide (s.swipe_id ≠ it.swipe_id))

/-- DynamoDB `put_item` on the matches table: unconditionally replaces the
item with the same `match_id` (no condition expression in the source). -/
def putMatch (tbl : List MatchItem) (it : MatchItem) : List MatchItem :=
  it :: tbl.filter (fun m => decide (m.match_id ≠ it.match_id))

/-- Number of rows of the matches table with the given key. -/
def countKey (tbl : List MatchItem) (k : String) : ℕ :=
  (tbl.filter (fun m => decide (m.match_id = k))).length

/-- Shallow embedding of `lambda_handler` in `src/_BeatSwipeRecordAction.py`
(lines 78–196), after authentication: validate the body, the action value,
the caller profile and role, and the track; then write the swipe row and,
for a right swipe, put the match row keyed
`f"{user_id}#{beatmaker_id}#{track_id}"`. -/
def lambda_handler (users : String → Option UserProfile)
    (tracks : String → Option Track) (st : SwipeState) (user_id : String)
    (req : SwipeRequest) (now : ℤ) : ApiResponse × SwipeState :=
  match req.track_id, req.action with
  | some tid, some act =>
    if tid = "" ∨ act = "" then
      (⟨400, "Missing trackId or action"⟩, st)
    else if ¬ (act = "right" ∨ act = "left" ∨ act = "down") then
      (⟨400, "Invalid action"⟩, st)
    else
      match users user_id with
      | none => (⟨404, "User profile not found"⟩, st)
      | some prof =>
        if pyLower (prof.userType.getD "") ≠ "rappeur" then
          (⟨400, "BeatSwipe is only available for artists"⟩, st)
        else
          match tracks tid with
          | none => (⟨404, "Track not found"⟩, st)
          | some track =>
            let beatmaker := track.user_id
            let swipe : SwipeItem :=
              ⟨user_id ++ "#" ++ tid, user_id, tid, act, now⟩
            let st1 : SwipeState := ⟨putSwipe st.swipes swipe, st.match_items⟩
            if act = "right" then
              let mid := user_id ++ "#" ++ pyStr beatmaker ++ "#" ++ tid
              let m : MatchItem := ⟨mid, user_id, beatmaker, tid, now, "new"⟩
              (⟨200, "Match created successfully"⟩,
                ⟨st1.swipes, putMatch st1.match_items m⟩)
            else
              (⟨200, "Swipe recorded successfully"⟩, st1)
  | _, _ => (⟨400, "Missing trackId or action"⟩, st)

/-- Concrete user store: a single artist. -/
def usersA : String → Option UserProfile :=
  fun uid => if uid = "artistA" then some ⟨some "rappeur", [], none⟩ else none

/-- Concrete track store: one track owned by `"beatmakerB"`, and one track
whose item has no `user_id` attribute. -/
def tracksA : String → Option Track :=
  fun tid =>
    if tid = "trackT" then
      some ⟨"trackT", some "beatmakerB", some "Trap", none, none, false, 0, 0, none⟩
    else if tid = "orphan" then
      some ⟨"orphan", none, some "Trap", none, none, false, 0, 0, none⟩
    else none

end RecordAction

namespace Reco

/-- The `bpm_preferences` dictionary built by `get_user_bpm_preferences`:
only the fields `score_track` reads (`avg_bpm`, `has_preference`).  In the
source `avg_bpm` is set whenever `has_preference` is true. -/
structure BpmPreferences where
  avg_bpm : ℚ
  has_preference : Bool
  deriving Repr, DecidableEq

/-- The `preferences` dictionary returned by `analyze_user_preferences`.
The genre / mood / beatmaker maps are association lists (Python dicts). -/
structure Preferences where
  genre_preferences : List (String × ℚ)
  mood_preferences : List (String × ℚ)
  bpm_preferences : BpmPreferences
  beatmaker_preferences : List (String × ℚ)
  swiped_track_ids : List String
  user_id : String
  deriving Repr, DecidableEq

/-- Python `key in dict` / `dict[key]` on an association list. -/
def lookupPref (m : List (String × ℚ)) (k : String) : Option ℚ :=
  (m.find? (fun e => e.1 == k)).map (fun e => e.2)

/-- The six weights of `score_track` (source lines 539–613). -/
def W_genre : ℚ := 35 / 100

/-- Mood weight in `score_track`. -/
def W_mood : ℚ := 25 / 100

/-- BPM weight in `score_track`. -/
def W_bpm : ℚ := 15 / 100

/-- Beatmaker weight in `score_track`. -/
def W_beatmaker : ℚ := 15 / 100

/-- Popularity weight in `score_track`. -/
def W_popularity : ℚ := 5 / 100

/-- Novelty weight in `score_track`. -/
def W_novelty : ℚ := 5 / 100

/-- Genre term of `score_track` (source lines 539–543): the genre must be a
truthy string and present in the preference map. -/
def genreComponent (t : Track) (p : Preferences) : ℚ :=
  match t.genre with
  | some g =>
    if g ≠ "" then
      match lookupPref p.genre_preferences g with
      | some s => s * W_genre
      | none => 0
    else 0
  | none => 0

/-- Mood term of `score_track` (source lines 545–549). -/
def moodComponent (t : Track) (p : Preferences) : ℚ :=
  match t.mood with
  | some m =>
    if m ≠ "" then
      match lookupPref p.mood_preferences m with
      | some s => s * W_mood
      | none => 0
    else 0
  | none => 0

/-- The tiered BPM-difference score of `score_track`
(source lines 562–571). -/
def bpmTier (diff : ℚ) : ℚ :=
  if diff ≤ 5 then 10
  else if diff ≤ 10 then 8
  else if diff ≤ 20 then 5
  else if diff ≤ 30 then 3
  else 1

/-- BPM term of `score_track` (source lines 551–575): applied only when the
track has a truthy `bpm` and the preferences carry `has_preference`;
otherwise the term is absent (contributes nothing). -/
def bpmComponent (t : Track) (p : Preferences) : ℚ :=
  match t.bpm with
  | some b =>
    if b ≠ 0 ∧ p.bpm_preferences.has_preference then
      bpmTier |b - p.bpm_preferences.avg_bpm| * W_bpm
    else 0
  | none => 0

/-- Beatmaker term of `score_track` (source lines 577–581). -/
def beatmakerComponent (t : Track) (p : Preferences) : ℚ :=
  match t.user_id with
  | some b =>
    if b ≠ "" then
      match lookupPref p.beatmaker_preferences b with
      | some s => s * W_beatmaker
      | none => 0
    else 0
  | none => 0

/-- Popularity term of `score_track` (source lines 583–588). -/
def popularityComponent (t : Track) : ℚ :=
  min 10 (((t.likes : ℚ) * (7 / 10) + (t.plays : ℚ) * (3 / 10)) / 20) * W_popularity

/-- The tiered age score of `score_track` (source lines 598–605). -/
def noveltyTier (ageDays : ℚ) : ℚ :=
  if ageDays ≤ 7 then 10
  else if ageDays ≤ 30 then 7
  else if ageDays ≤ 90 then 5
  else 3

/-- Novelty term of `score_track` (source lines 590–613): a neutral `5`
is used when the creation date is absent (or unparseable). -/
def noveltyComponent (t : Track) (now : ℤ) : ℚ :=
  match t.created_at with
  | some c => noveltyTier (((now : ℚ) - (c : ℚ)) / (24 * 3600)) * W_novelty
  | none => 5 * W_novelty

/-- Shallow embedding of `ImprovedRecommender.score_track`
(source lines 513–615): `-1` for already-swiped, own, or private tracks,
otherwise the weighted sum of the six components accumulated by the
sources `score +=` statements. -/
def score_track (t : Track) (p : Preferences) (now : ℤ) : ℚ :=
  if t.track_id ∈ p.swiped_track_ids then -1
  else if t.user_id = some p.user_id then -1
  else if t.isPrivate then -1
  else
    genreComponent t p + moodComponent t p + bpmComponent t p +
      beatmakerComponent t p + popularityComponent t + noveltyComponent t now

/-- The scoring loop of `get_recommendations` (source lines 701–715): at the
top of each iteration the clock is read (`times i` models the value of
`time.time()` at iteration `i`); when `times i - start` exceeds the budget
the loop breaks, otherwise the track is scored and kept iff its score is
nonnegative. -/
def scoreTracksLoop (now : ℤ) (times : ℕ → ℚ) (start budget : ℚ)
    (p : Preferences) : List Track → ℕ → List (Track × ℚ)
  | [], _ => []
  | t :: ts, i =>
    if budget < times i - start then []
    else
      let s := score_track t p now
      if 0 ≤ s then (t, s) :: scoreTracksLoop now times start budget p ts (i + 1)
      else scoreTracksLoop now times start budget p ts (i + 1)

/-- The scoring loop with no time pressure: every track scored, the
nonnegatively scored ones kept in order. -/
def pyScored (now : ℤ) (p : Preferences) (l : List Track) : List (Track × ℚ) :=
  l.foldr
    (fun t acc =>
      if 0 ≤ score_track t p now then (t, score_track t p now) :: acc else acc)
    []

/-- Stable insertion of a scored track into a list sorted by descending
score (model of Python `list.sort(key=..., reverse=True)`). -/
def insertDesc (x : Track × ℚ) : List (Track × ℚ) → List (Track × ℚ)
  | [] => [x]
  | y :: ys => if x.2 ≤ y.2 then y :: insertDesc x ys else x :: y :: ys

/-- Stable sort by descending score (`scored_tracks.sort(key=lambda x: x[1],
reverse=True)`, source line 718). -/
def sortDesc : List (Track × ℚ) → List (Track × ℚ)
  | [] => []
  | x :: xs => insertDesc x (sortDesc xs)

/-- The explore/exploit selection of `get_recommendations` (source lines
717–732): sort by descending score, take the top
`int(min(len(scored), max) * 0.8)`, then fill with a random sample of the
remaining scored tracks (the `sampler` parameter models `random.sample`). -/
def select_tracks (sampler : List Track → ℕ → List Track)
    (max_recommendations : ℕ) (scored : List (Track × ℚ)) : List Track :=
  let sorted := sortDesc scored
  let top_count := min scored.length max_recommendations * 4 / 5
  let top_tracks := (sorted.take top_count).map Prod.fst
  let remaining_tracks :=
    ((sorted.drop top_count).map Prod.fst).filter
      (fun t => decide (t ∉ top_tracks))
  let random_tracks :=
    sampler remaining_tracks
      (min (max_recommendations - top_count) remaining_tracks.length)
  top_tracks ++ random_tracks

/-- Shallow embedding of `ImprovedRecommender.get_recommendations`
(source lines 617–740) from the scoring loop on.  `all_tracks` is the
candidate list entering the loop (the DynamoDB scan and in-memory genre
pre-filter of lines 645–699 only choose this list); `start`/`times` model
the wall clock; the budget is the sources `max_execution_time = 3`. -/
def get_recommendations (now : ℤ) (start : ℚ) (times : ℕ → ℚ)
    (sampler : List Track → ℕ → List Track) (p : Preferences)
    (all_tracks : List Track) (max_recommendations : ℕ) : List Track :=
  select_tracks sampler max_recommendations
    (scoreTracksLoop now times start 3 p all_tracks 0)

/-- A deterministic stand-in for `random.sample` used by the concrete
witnesses: take the first `k` elements. -/
def takeSampler (l : List Track) (k : ℕ) : List Track := l.take k

/-- The sample has exactly the requested length whenever the request is
feasible (guaranteed by `random.sample`). -/
def SamplerLen (sampler : List Track → ℕ → List Track) : Prop :=
  ∀ l k, k ≤ l.length → (sampler l k).length = k

/-- Every sampled element comes from the input list (guaranteed by
`random.sample`). -/
def SamplerSub (sampler : List Track → ℕ → List Track) : Prop :=
  ∀ l k, ∀ x ∈ sampler l k, x ∈ l

/-- Add `v` to the entry of `k` in an association list, inserting the key at
the end if absent — the behaviour of `defaultdict(float)` under
`d[k] += v` (insertion order preserved). -/
def addScore (m : List (String × ℚ)) (k : String) (v : ℚ) : List (String × ℚ) :=
  match m with
  | [] => [(k, v)]
  | e :: rest => if e.1 = k then (e.1, e.2 + v) :: rest else e :: addScore rest k v

/-- Add one occurrence of `k` to a counting association list (the behaviour
of `collections.Counter`, which keeps first-encounter order). -/
def addCount (m : List (String × ℕ)) (k : String) : List (String × ℕ) :=
  match m with
  | [] => [(k, 1)]
  | e :: rest => if e.1 = k then (e.1, e.2 + 1) :: rest else e :: addCount rest k

/-- `Counter(l).items()`: each distinct element with its multiplicity, in
first-occurrence order. -/
def counterItems (l : List String) : List (String × ℕ) :=
  l.foldl addCount []

/-- Largest value of an association list (`max(d.values())`); `0` on the
empty list (the source only calls this on non-empty dicts). -/
def maxVal : List (String × ℚ) → ℚ
  | [] => 0
  | e :: rest => (rest.map (fun x => x.2)).foldl max e.2

/-- The final normalisation of the genre / mood / beatmaker maps
(source lines 271–277, 352–357): when the maximum value is positive, each
value is rescaled to `(v / max) * 10`. -/
def normalize10 (m : List (String × ℚ)) : List (String × ℚ) :=
  if m = [] then m
  else
    let mx := maxVal m
    if 0 < mx then m.map (fun e => (e.1, e.2 / mx * 10)) else m

/-- `get_tracks_genres` (source lines 280–304): deduplicate the ids, cap at
50, and collect the `genre` attribute of each stored track that has one.
(`list(set(...))` has unspecified order; first-occurrence order is used.) -/
def get_tracks_genres (tracks : String → Option Track)
    (track_ids : List String) : List String :=
  (track_ids.dedup.take 50).filterMap (fun tid => (tracks tid).bind (fun t => t.genre))

/-- The default genres installed on a cold start
(source lines 266–269). -/
def default_genres : List String := ["Trap", "Hip Hop", "Drill", "RnB", "Boom Bap"]

/-- Shallow embedding of `get_user_genre_preferences`
(source lines 221–278).  `right_swipe_track_ids` are the track ids of the
recent right swipes and `liked_track_ids` those of the standard likes (the
results of the two table queries). -/
def get_user_genre_preferences (tracks : String → Option Track)
    (right_swipe_track_ids liked_track_ids : List String)
    (profile : UserProfile) : List (String × ℚ) :=
  let s1 :=
    (counterItems (get_tracks_genres tracks right_swipe_track_ids)).foldl
      (fun m gc => if gc.1 ≠ "" then addScore m gc.1 ((gc.2 : ℚ) * 2) else m) []
  let s2 :=
    (counterItems (get_tracks_genres tracks liked_track_ids)).foldl
      (fun m gc => if gc.1 ≠ "" then addScore m gc.1 ((gc.2 : ℚ) * (3 / 2)) else m) s1
  let s3 :=
    profile.musicGenres.foldl
      (fun m g => if g ≠ "" then addScore m g 3 else m) s2
  let s4 := if s3 = [] then default_genres.map (fun g => (g, (1 : ℚ))) else s3
  normalize10 s4

/-- Shallow embedding of `get_user_mood_preferences`
(source lines 306–359), on the exception-free path: collect the `mood`
attributes of the recently right-swiped tracks, count them with weight 2,
add 5 for the profiles truthy `musicalMood`, and normalise.  There is no
default fill for this map. -/
def get_user_mood_preferences (tracks : String → Option Track)
    (right_swipe_track_ids : List String)
    (profile : UserProfile) : List (String × ℚ) :=
  let moods :=
    (right_swipe_track_ids.dedup.take 50).filterMap
      (fun tid => (tracks tid).bind (fun t => t.mood))
  let s1 :=
    (counterItems moods).foldl
      (fun m mc => if mc.1 ≠ "" then addScore m mc.1 ((mc.2 : ℚ) * 2) else m) []
  let s2 :=
    match profile.musicalMood with
    | some um => if um ≠ "" then addScore s1 um 5 else s1
    | none => s1
  normalize10 s2

/-- A preference map whose values lie in the normalised band `[0, 10]` —
the invariant established by the final normalisation of
`get_user_genre_preferences`, `get_user_mood_preferences` and
`get_preferred_beatmakers`. -/
def PrefBounded (m : List (String × ℚ)) : Prop :=
  ∀ e ∈ m, 0 ≤ e.2 ∧ e.2 ≤ 10

/-- The outcome of the recommendations Lambda: an error response, or a 200
with a list of tracks. -/
inductive RecoResult where
  | err (statusCode : ℕ) (message : String)
  | ok (tracks : List Track)
  deriving Repr, DecidableEq

/-- Shallow embedding of `lambda_handler` in
`src/BeatSwipeGetRecommendations.py` (lines 755–807), after
authentication: 404 when the caller has no profile, 403 when the profiles
`userType` is not `rappeur` (case-insensitively), and only then is the
recommender (`recommend`, kept abstract here) invoked. -/
def reco_handler (users : String → Option UserProfile)
    (recommend : String → List Track) (user_id : String) : RecoResult :=
  match users user_id with
  | none => .err 404 "Profil utilisateur non trouve"
  | some prof =>
    if pyLower (prof.userType.getD "") ≠ "rappeur" then
      .err 403 "BeatSwipe est uniquement disponible pour les artistes"
    else
      .ok (recommend user_id)

end Reco

open RecordAction Reco

/-- Reduction of the swipe handler on a successful right swipe: with an
artist caller and an existing track, it writes the swipe row and puts the
match row keyed by user, owner and track. -/
theorem lambda_handler_right_eq (users : String → Option UserProfile)
    (tracks : String → Option Track) (st : SwipeState) (uid tid : String)
    (now : ℤ) (prof : UserProfile) (track : Track)
    (hu : users uid = some prof)
    (hr : pyLower (prof.userType.getD "") = "rappeur")
    (ht : tracks tid = some track) (htid : tid ≠ "") :
    lambda_handler users tracks st uid ⟨some tid, some "right"⟩ now =
      (⟨200, "Match created successfully"⟩,
       ⟨putSwipe st.swipes ⟨uid ++ "#" ++ tid, uid, tid, "right", now⟩,
        putMatch st.match_items
          ⟨uid ++ "#" ++ pyStr track.user_id ++ "#" ++ tid, uid,
            track.user_id, tid, now, "new"⟩⟩) := by
  simp [lambda_handler, hu, ht, htid, hr]

/-- After a `put_item`, the matches table holds exactly one row with the
key of the written item. -/
theorem countKey_putMatch (tbl : List MatchItem) (m : MatchItem) :
    countKey (putMatch tbl m) m.match_id = 1 := by
  have h : ∀ x : MatchItem,
      (decide (x.match_id = m.match_id) && decide (x.match_id ≠ m.match_id)) = false := by
    intro x
    by_cases hx : x.match_id = m.match_id <;> simp [hx]
  simp [countKey, putMatch, List.filter_filter, h]

/-- Any row of the table after a `put_item` that carries the key of the
written item is that item (the old row with this key was replaced). -/
theorem mem_putMatch_key (tbl : List MatchItem) (m x : MatchItem)
    (hx : x ∈ putMatch tbl m) (hk : x.match_id = m.match_id) : x = m := by
  rcases List.mem_cons.mp hx with h | h
  · exact h
  · have h2 := (List.mem_filter.mp h).2
    simp only [decide_eq_true_eq] at h2
    exact absurd hk h2

/-- C1 (counterexample): the claim says the second right swipe is a no-op on
the match table and does not reset the existing match row.  In the code the
match write is an unconditional `put_item`: after a first right swipe at
time 100 the match row carries timestamp 100, and repeating the identical
swipe at time 200 overwrites the row, which then carries timestamp 200 —
the second call did change the match table. -/
theorem C1_counterexample :
    ((lambda_handler usersA tracksA
        ((lambda_handler usersA tracksA ⟨[], []⟩ "artistA"
            ⟨some "trackT", some "right"⟩ 100).2)
        "artistA" ⟨some "trackT", some "right"⟩ 200).2).match_items =
      [⟨"artistA#beatmakerB#trackT", "artistA", some "beatmakerB", "trackT",
        200, "new"⟩] ∧
    ((lambda_handler usersA tracksA ⟨[], []⟩ "artistA"
        ⟨some "trackT", some "right"⟩ 100).2).match_items =
      [⟨"artistA#beatmakerB#trackT", "artistA", some "beatmakerB", "trackT",
        100, "new"⟩] ∧
    (200 : ℤ) ≠ 100 := by
  refine ⟨by decide, by decide, by decide⟩

/-- C1 (amended): calling the swipe handler twice with a right swipe on the
same existing track leaves exactly one match row keyed
`U#B#T`; but the second call is not a no-op: it overwrites the row, whose
status is (re)set to `new` and whose timestamp is the time of the second
call. -/
theorem C1_one_match_row (users : String → Option UserProfile)
    (tracks : String → Option Track) (st : SwipeState) (uid tid bId : String)
    (now1 now2 : ℤ) (prof : UserProfile) (track : Track)
    (hu : users uid = some prof)
    (hr : pyLower (prof.userType.getD "") = "rappeur")
    (ht : tracks tid = some track) (hb : track.user_id = some bId)
    (htid : tid ≠ "") :
    countKey
      ((lambda_handler users tracks
          ((lambda_handler users tracks st uid ⟨some tid, some "right"⟩ now1).2)
          uid ⟨some tid, some "right"⟩ now2).2).match_items
      (uid ++ "#" ++ bId ++ "#" ++ tid) = 1 ∧
    ∀ m ∈ ((lambda_handler users tracks
          ((lambda_handler users tracks st uid ⟨some tid, some "right"⟩ now1).2)
          uid ⟨some tid, some "right"⟩ now2).2).match_items,
      m.match_id = uid ++ "#" ++ bId ++ "#" ++ tid →
        m.status = "new" ∧ m.timestamp = now2 := by
  rw [lambda_handler_right_eq users tracks st uid tid now1 prof track hu hr ht htid,
    lambda_handler_right_eq users tracks _ uid tid now2 prof track hu hr ht htid]
  simp only [hb, pyStr]
  constructor
  · exact countKey_putMatch _ _
  · intro m hm hk
    have := mem_putMatch_key _ _ m hm hk
    subst this
    exact ⟨rfl, rfl⟩

/-- C1 (witness): the amended statement instantiated on the concrete store
`usersA` / `tracksA`. -/
theorem C1_one_match_row_witness :
    countKey
      ((lambda_handler usersA tracksA
          ((lambda_handler usersA tracksA ⟨[], []⟩ "artistA"
              ⟨some "trackT", some "right"⟩ 100).2)
          "artistA" ⟨some "trackT", some "right"⟩ 200).2).match_items
      ("artistA" ++ "#" ++ "beatmakerB" ++ "#" ++ "trackT") = 1 ∧
    ∀ m ∈ ((lambda_handler usersA tracksA
          ((lambda_handler usersA tracksA ⟨[], []⟩ "artistA"
              ⟨some "trackT", some "right"⟩ 100).2)
          "artistA" ⟨some "trackT", some "right"⟩ 200).2).match_items,
      m.match_id = "artistA" ++ "#" ++ "beatmakerB" ++ "#" ++ "trackT" →
        m.status = "new" ∧ m.timestamp = 200 :=
  C1_one_match_row usersA tracksA ⟨[], []⟩ "artistA" "trackT" "beatmakerB"
    100 200 ⟨some "rappeur", [], none⟩
    ⟨"trackT", some "beatmakerB", some "Trap", none, none, false, 0, 0, none⟩
    rfl (by decide) rfl rfl (by decide)

/-- C10: a right swipe on an existing track whose stored item has no
`user_id` attribute is not rejected: the handler records the swipe row,
writes a match row whose `beatmaker_id` is null (and whose key embeds the
rendering `None`), and reports success. -/
theorem C10_missing_owner :
    lambda_handler usersA tracksA ⟨[], []⟩ "artistA"
        ⟨some "orphan", some "right"⟩ 500 =
      (⟨200, "Match created successfully"⟩,
       ⟨[⟨"artistA#orphan", "artistA", "orphan", "right", 500⟩],
        [⟨"artistA#None#orphan", "artistA", none, "orphan", 500, "new"⟩]⟩) := by
  decide

/-- C5 (counterexample): for a user with no swipe history and no declared
mood, `get_user_mood_preferences` returns the empty map — the mood map has
no default fill, contradicting the claim that neither map is ever empty. -/
theorem C5_counterexample :
    get_user_mood_preferences (fun _ => none) [] ⟨some "rappeur", [], none⟩ = [] := by
  decide

/-- C5 (amended): on a cold start (no swipe or like history, no declared
genres, no declared mood) the genre map falls back to the five fixed
popular default genres, each normalised to score 10 — it is never empty —
but the mood map has no such fallback and is empty. -/
theorem C5_cold_start (tracks : String → Option Track) (profile : UserProfile)
    (hg : profile.musicGenres = []) (hm : profile.musicalMood = none) :
    get_user_genre_preferences tracks [] [] profile =
      default_genres.map (fun g => (g, (10 : ℚ))) ∧
    get_user_mood_preferences tracks [] profile = [] := by
  constructor
  · simp only [get_user_genre_preferences, get_tracks_genres, hg,
      List.dedup_nil, List.take_nil, List.filterMap_nil, counterItems,
      List.foldl_nil]
    norm_num [normalize10, maxVal, default_genres]
    simp
  · simp only [get_user_mood_preferences, hm, List.dedup_nil, List.take_nil,
      List.filterMap_nil, counterItems, List.foldl_nil]
    norm_num [normalize10]

/-- C5 (witness): the cold-start statement instantiated on an empty track
store and a profile with no declared preferences. -/
theorem C5_cold_start_witness :
    get_user_genre_preferences (fun _ => none) [] [] ⟨some "rappeur", [], none⟩ =
      default_genres.map (fun g => (g, (10 : ℚ))) ∧
    get_user_mood_preferences (fun _ => none) [] ⟨some "rappeur", [], none⟩ = [] :=
  C5_cold_start (fun _ => none) ⟨some "rappeur", [], none⟩ rfl rfl

/-- C7 (counterexample): the claim says that when the track BPM or the
tempo preference is unknown the tempo component contributes a neutral
mid-value rather than zero.  In the code the whole BPM block is skipped in
that case: for a track with no `bpm` attribute (and a user with a tempo
preference) the tempo term is exactly 0, not a neutral mid-value. -/
theorem C7_counterexample :
    bpmComponent ⟨"t0", some "b", none, none, none, false, 0, 0, none⟩
      ⟨[], [], ⟨125, true⟩, [], [], "u"⟩ = 0 := rfl

/-- C7 (amended): the tempo term applies the tier mapping on the absolute
BPM difference (≤5 → 10, ≤10 → 8, ≤20 → 5, ≤30 → 3, else 1) times the
weight 0.15 exactly when both the track BPM (truthy) and a tempo preference
exist; when either is unknown the tempo term contributes zero (the neutral
mid-value fallback exists only in the novelty term). -/
theorem C7_bpm_tiers (t : Track) (p : Preferences) (b : ℚ) :
    (t.bpm = some b → b ≠ 0 → p.bpm_preferences.has_preference = true →
      bpmComponent t p = bpmTier |b - p.bpm_preferences.avg_bpm| * W_bpm) ∧
    (t.bpm = none ∨ p.bpm_preferences.has_preference = false →
      bpmComponent t p = 0) ∧
    (∀ d : ℚ,
      (d ≤ 5 → bpmTier d = 10) ∧ (5 < d → d ≤ 10 → bpmTier d = 8) ∧
      (10 < d → d ≤ 20 → bpmTier d = 5) ∧ (20 < d → d ≤ 30 → bpmTier d = 3) ∧
      (30 < d → bpmTier d = 1)) := by
  refine ⟨?_, ?_, ?_⟩
  · intro hb hb0 hp
    simp [bpmComponent, hb, hb0, hp]
  · rintro (h | h)
    · simp [bpmComponent, h]
    · cases ht : t.bpm <;> simp [bpmComponent, ht, h]
  · intro d
    refine ⟨?_, ?_, ?_, ?_, ?_⟩
    · intro h; rw [bpmTier, if_pos h]
    · intro h1 h2
      rw [bpmTier, if_neg (by linarith), if_pos h2]
    · intro h1 h2
      rw [bpmTier, if_neg (by linarith), if_neg (by linarith), if_pos h2]
    · intro h1 h2
      rw [bpmTier, if_neg (by linarith), if_neg (by linarith),
        if_neg (by linarith), if_pos h2]
    · intro h1
      rw [bpmTier, if_neg (by linarith), if_neg (by linarith),
        if_neg (by linarith), if_neg (by linarith)]

/-- C7 (witness): a track at 132 BPM against an average preference of 125
(difference 7, tier 8) receives the tier score times 0.15, and a track with
no BPM attribute receives 0. -/
theorem C7_bpm_tiers_witness :
    bpmComponent ⟨"t1", some "b", none, none, some 132, false, 0, 0, none⟩
        ⟨[], [], ⟨125, true⟩, [], [], "u"⟩ =
      bpmTier |(132 : ℚ) - 125| * W_bpm ∧
    bpmComponent ⟨"t0", some "b", none, none, none, false, 0, 0, none⟩
        ⟨[], [], ⟨125, true⟩, [], [], "u"⟩ = 0 :=
  ⟨(C7_bpm_tiers ⟨"t1", some "b", none, none, some 132, false, 0, 0, none⟩
      ⟨[], [], ⟨125, true⟩, [], [], "u"⟩ 132).1 rfl (by norm_num) rfl,
   (C7_bpm_tiers ⟨"t0", some "b", none, none, none, false, 0, 0, none⟩
      ⟨[], [], ⟨125, true⟩, [], [], "u"⟩ 0).2.1 (Or.inl rfl)⟩

/-- C9: the recommendations handler is role-gated: a caller with no stored
profile gets a 404, and a caller whose `userType` is not `rappeur`
(compared case-insensitively) gets a 403; in both cases the result does not
depend on the recommender at all (it is the same for every `recommend`
function), so no recommendations are computed. -/
theorem C9_role_gate (users : String → Option UserProfile)
    (recommend : String → List Track) (uid : String) :
    (users uid = none →
      reco_handler users recommend uid = .err 404 "Profil utilisateur non trouve") ∧
    (∀ prof, users uid = some prof →
      pyLower (prof.userType.getD "") ≠ "rappeur" →
      reco_handler users recommend uid =
        .err 403 "BeatSwipe est uniquement disponible pour les artistes") := by
  constructor
  · intro h
    simp [reco_handler, h]
  · intro prof h hr
    simp [reco_handler, h, hr]

/-- C9 (witness): a missing profile yields the 404 response and a
`beatmaker` profile yields the 403 response, for a concrete recommender. -/
theorem C9_role_gate_witness :
    reco_handler (fun _ => none) (fun _ => []) "u1" =
      .err 404 "Profil utilisateur non trouve" ∧
    reco_handler (fun _ => some ⟨some "Beatmaker", [], none⟩) (fun _ => []) "u1" =
      .err 403 "BeatSwipe est uniquement disponible pour les artistes" :=
  ⟨(C9_role_gate (fun _ => none) (fun _ => []) "u1").1 rfl,
   (C9_role_gate (fun _ => some ⟨some "Beatmaker", [], none⟩) (fun _ => []) "u1").2
     ⟨some "Beatmaker", [], none⟩ rfl (by decide)⟩

/-- C6: a swipe request with an invalid (or missing) action, a track absent
from the track store, or a caller who is not an artist, is rejected with a
client error (400 or 404) and neither the swipes table nor the matches
table is written: every validation happens before the first `put_item`. -/
theorem C6_validate_then_write (users : String → Option UserProfile)
    (tracks : String → Option Track) (st : SwipeState) (uid : String)
    (req : SwipeRequest) (now : ℤ)
    (h : (∀ a, req.action = some a → ¬(a = "right" ∨ a = "left" ∨ a = "down")) ∨
         (∀ tid, req.track_id = some tid → tid ≠ "" → tracks tid = none) ∨
         (∀ prof, users uid = some prof →
            pyLower (prof.userType.getD "") ≠ "rappeur")) :
    ((lambda_handler users tracks st uid req now).1.statusCode = 400 ∨
     (lambda_handler users tracks st uid req now).1.statusCode = 404) ∧
    (lambda_handler users tracks st uid req now).2 = st := by
  obtain ⟨otid, oact⟩ := req
  cases otid with
  | none => exact ⟨Or.inl rfl, rfl⟩
  | some tid =>
    cases oact with
    | none => exact ⟨Or.inl rfl, rfl⟩
    | some act =>
      simp only [lambda_handler]
      by_cases h1 : tid = "" ∨ act = ""
      · rw [if_pos h1]
        exact ⟨Or.inl rfl, rfl⟩
      · rw [if_neg h1]
        by_cases h2 : act = "right" ∨ act = "left" ∨ act = "down"
        · rw [if_neg (not_not_intro h2)]
          cases hu : users uid with
          | none => exact ⟨Or.inr rfl, rfl⟩
          | some prof =>
            dsimp only
            by_cases h3 : pyLower (prof.userType.getD "") = "rappeur"
            · rw [if_neg (not_not_intro h3)]
              have htid : tid ≠ "" := fun hh => h1 (Or.inl hh)
              rcases h with ha | htr | hrole
              · exact absurd h2 (ha act rfl)
              · rw [htr tid rfl htid]
                exact ⟨Or.inr rfl, rfl⟩
              · exact absurd h3 (hrole prof hu)
            · rw [if_pos h3]
              exact ⟨Or.inl rfl, rfl⟩
        · rw [if_pos h2]
          exact ⟨Or.inl rfl, rfl⟩

/-- C6 (witness): an unknown action value `"up"` on the concrete store is
rejected with a client error and the state is unchanged. -/
theorem C6_validate_then_write_witness :
    ((lambda_handler usersA tracksA ⟨[], []⟩ "artistA"
        ⟨some "trackT", some "up"⟩ 7).1.statusCode = 400 ∨
     (lambda_handler usersA tracksA ⟨[], []⟩ "artistA"
        ⟨some "trackT", some "up"⟩ 7).1.statusCode = 404) ∧
    (lambda_handler usersA tracksA ⟨[], []⟩ "artistA"
        ⟨some "trackT", some "up"⟩ 7).2 = ⟨[], []⟩ :=
  C6_validate_then_write usersA tracksA ⟨[], []⟩ "artistA"
    ⟨some "trackT", some "up"⟩ 7
    (Or.inl (by
      intro a ha
      obtain rfl := Option.some.inj ha
      decide))

/-- A successful preference lookup returns one of the values of the map. -/
theorem lookupPref_mem {m : List (String × ℚ)} {k : String} {s : ℚ}
    (h : lookupPref m k = some s) : ∃ e ∈ m, e.2 = s := by
  simp only [lookupPref, Option.map_eq_some'] at h
  obtain ⟨e, he, hes⟩ := h
  exact ⟨e, List.mem_of_find?_eq_some he, hes⟩

/-- Bounds of a weighted lookup term with a preference map whose values lie
in `[0, 10]`. -/
theorem lookup_term_bounds (m : List (String × ℚ)) (g : String) (w : ℚ)
    (hw : 0 ≤ w) (hb : PrefBounded m) :
    0 ≤ (match lookupPref m g with | some s => s * w | none => 0) ∧
    (match lookupPref m g with | some s => s * w | none => 0) ≤ 10 * w := by
  cases hl : lookupPref m g with
  | none => exact ⟨le_refl 0, by positivity⟩
  | some s =>
    obtain ⟨e, he, hes⟩ := lookupPref_mem hl
    obtain ⟨h0, h10⟩ := hb e he
    rw [hes] at h0 h10
    exact ⟨mul_nonneg h0 hw, mul_le_mul_of_nonneg_right h10 hw⟩

/-- The genre term is bounded by `[0, 10 · 0.35]`. -/
theorem genreComponent_bounds (t : Track) (p : Preferences)
    (hb : PrefBounded p.genre_preferences) :
    0 ≤ genreComponent t p ∧ genreComponent t p ≤ 10 * W_genre := by
  have hw : (0 : ℚ) ≤ W_genre := by norm_num [W_genre]
  unfold genreComponent
  cases t.genre with
  | none => dsimp only; constructor <;> positivity
  | some g =>
    dsimp only
    split_ifs with hg
    · exact lookup_term_bounds p.genre_preferences g W_genre hw hb
    · constructor <;> positivity

/-- The mood term is bounded by `[0, 10 · 0.25]`. -/
theorem moodComponent_bounds (t : Track) (p : Preferences)
    (hb : PrefBounded p.mood_preferences) :
    0 ≤ moodComponent t p ∧ moodComponent t p ≤ 10 * W_mood := by
  have hw : (0 : ℚ) ≤ W_mood := by norm_num [W_mood]
  unfold moodComponent
  cases t.mood with
  | none => dsimp only; constructor <;> positivity
  | some m =>
    dsimp only
    split_ifs with hm
    · exact lookup_term_bounds p.mood_preferences m W_mood hw hb
    · constructor <;> positivity

/-- The tier values of the BPM mapping lie in `[1, 10]`. -/
theorem bpmTier_bounds (d : ℚ) : 1 ≤ bpmTier d ∧ bpmTier d ≤ 10 := by
  unfold bpmTier
  split_ifs <;> norm_num

/-- The BPM term is bounded by `[0, 10 · 0.15]`. -/
theorem bpmComponent_bounds (t : Track) (p : Preferences) :
    0 ≤ bpmComponent t p ∧ bpmComponent t p ≤ 10 * W_bpm := by
  unfold bpmComponent
  cases t.bpm with
  | none => dsimp only; norm_num [W_bpm]
  | some b =>
    dsimp only
    split_ifs with hcond
    · obtain ⟨h1, h10⟩ := bpmTier_bounds |b - p.bpm_preferences.avg_bpm|
      constructor
      · have : (0 : ℚ) ≤ W_bpm := by norm_num [W_bpm]
        nlinarith
      · exact mul_le_mul_of_nonneg_right h10 (by norm_num [W_bpm])
    · norm_num [W_bpm]

/-- The beatmaker term is bounded by `[0, 10 · 0.15]`. -/
theorem beatmakerComponent_bounds (t : Track) (p : Preferences)
    (hb : PrefBounded p.beatmaker_preferences) :
    0 ≤ beatmakerComponent t p ∧ beatmakerComponent t p ≤ 10 * W_beatmaker := by
  have hw : (0 : ℚ) ≤ W_beatmaker := by norm_num [W_beatmaker]
  unfold beatmakerComponent
  cases t.user_id with
  | none => dsimp only; constructor <;> positivity
  | some b =>
    dsimp only
    split_ifs with hbm
    · exact lookup_term_bounds p.beatmaker_preferences b W_beatmaker hw hb
    · constructor <;> positivity

/-- The popularity term is bounded by `[0, 10 · 0.05]`. -/
theorem popularityComponent_bounds (t : Track) :
    0 ≤ popularityComponent t ∧ popularityComponent t ≤ 10 * W_popularity := by
  unfold popularityComponent
  have hx : (0 : ℚ) ≤ ((t.likes : ℚ) * (7 / 10) + (t.plays : ℚ) * (3 / 10)) / 20 := by
    positivity
  constructor
  · have h0 : (0 : ℚ) ≤ min 10 (((t.likes : ℚ) * (7 / 10) + (t.plays : ℚ) * (3 / 10)) / 20) :=
      le_min (by norm_num) hx
    have hw : (0 : ℚ) ≤ W_popularity := by norm_num [W_popularity]
    exact mul_nonneg h0 hw
  · exact mul_le_mul_of_nonneg_right (min_le_left _ _) (by norm_num [W_popularity])

/-- The novelty term is bounded by `[0, 10 · 0.05]`. -/
theorem noveltyComponent_bounds (t : Track) (now : ℤ) :
    0 ≤ noveltyComponent t now ∧ noveltyComponent t now ≤ 10 * W_novelty := by
  unfold noveltyComponent
  cases t.created_at with
  | none => dsimp only; norm_num [W_novelty]
  | some c =>
    dsimp only
    have : 0 ≤ noveltyTier (((now : ℚ) - (c : ℚ)) / (24 * 3600)) ∧
        noveltyTier (((now : ℚ) - (c : ℚ)) / (24 * 3600)) ≤ 10 := by
      unfold noveltyTier
      split_ifs <;> norm_num
    constructor
    · exact mul_nonneg this.1 (by norm_num [W_novelty])
    · exact mul_le_mul_of_nonneg_right this.2 (by norm_num [W_novelty])

/-- C3: the six component weights of `score_track` sum to exactly 1, and
for a track that is not excluded (not already swiped, not owned by the
requesting user, not private), against preference maps in the normalised
band `[0, 10]`, the score lies in `[0, 10]`: each component is bounded by
`[0, 10]` before weighting. -/
theorem C3_score_bounds (t : Track) (p : Preferences) (now : ℤ)
    (h1 : t.track_id ∉ p.swiped_track_ids) (h2 : t.user_id ≠ some p.user_id)
    (h3 : t.isPrivate = false)
    (hg : PrefBounded p.genre_preferences) (hm : PrefBounded p.mood_preferences)
    (hbm : PrefBounded p.beatmaker_preferences) :
    0 ≤ score_track t p now ∧ score_track t p now ≤ 10 ∧
    W_genre + W_mood + W_bpm + W_beatmaker + W_popularity + W_novelty = 1 := by
  have hG := genreComponent_bounds t p hg
  have hM := moodComponent_bounds t p hm
  have hB := bpmComponent_bounds t p
  have hK := beatmakerComponent_bounds t p hbm
  have hP := popularityComponent_bounds t
  have hN := noveltyComponent_bounds t now
  unfold score_track
  rw [if_neg h1, if_neg h2, if_neg (by simp [h3])]
  norm_num [W_genre, W_mood, W_bpm, W_beatmaker, W_popularity, W_novelty] at *
  constructor
  · linarith
  · linarith

/-- C3 (witness): a concrete non-excluded track against the empty (hence
trivially bounded) preference maps. -/
theorem C3_score_bounds_witness :
    0 ≤ score_track ⟨"x", some "owner", some "Trap", none, none, false, 3, 14, none⟩
        ⟨[], [], ⟨125, false⟩, [], [], "u"⟩ 0 ∧
    score_track ⟨"x", some "owner", some "Trap", none, none, false, 3, 14, none⟩
        ⟨[], [], ⟨125, false⟩, [], [], "u"⟩ 0 ≤ 10 ∧
    W_genre + W_mood + W_bpm + W_beatmaker + W_popularity + W_novelty = 1 :=
  C3_score_bounds ⟨"x", some "owner", some "Trap", none, none, false, 3, 14, none⟩
    ⟨[], [], ⟨125, false⟩, [], [], "u"⟩ 0
    (by simp) (by decide) rfl
    (fun e he => absurd he (List.not_mem_nil e))
    (fun e he => absurd he (List.not_mem_nil e))
    (fun e he => absurd he (List.not_mem_nil e))

/-- Every pair produced by the scoring loop carries the score of its track,
and that score is nonnegative (negative scores are filtered out). -/
theorem scoreTracksLoop_mem (now : ℤ) (times : ℕ → ℚ) (start budget : ℚ)
    (p : Preferences) :
    ∀ (ts : List Track) (i : ℕ) (t : Track) (s : ℚ),
      (t, s) ∈ scoreTracksLoop now times start budget p ts i →
      s = score_track t p now ∧ 0 ≤ s := by
  intro ts
  induction ts with
  | nil => intro i t s h; simp [scoreTracksLoop] at h
  | cons hd tl ih =>
    intro i t s h
    rw [scoreTracksLoop] at h
    split at h
    · simp at h
    · dsimp only at h
      split at h
      · rcases List.mem_cons.mp h with he | htail
        · obtain ⟨h1, h2⟩ := Prod.mk.injEq .. ▸ he
          subst h1; subst h2
          exact ⟨rfl, by assumption⟩
        · exact ih (i + 1) t s htail
      · exact ih (i + 1) t s h

/-- Inserting into the descending-sorted list is a permutation of consing. -/
theorem insertDesc_perm (x : Track × ℚ) (l : List (Track × ℚ)) :
    (insertDesc x l).Perm (x :: l) := by
  induction l with
  | nil => rfl
  | cons y ys ih =>
    rw [insertDesc]
    split
    · exact ((ih.cons y).trans (List.Perm.swap x y ys))
    · rfl

/-- The descending sort permutes its input (model of Python list.sort). -/
theorem sortDesc_perm (l : List (Track × ℚ)) : (sortDesc l).Perm l := by
  induction l with
  | nil => rfl
  | cons x xs ih => exact (insertDesc_perm x (sortDesc xs)).trans (ih.cons x)

/-- Every track returned by the explore/exploit selection comes from the
scored list, whether it was taken from the top block or from the random
fill. -/
theorem mem_select_tracks (sampler : List Track → ℕ → List Track)
    (N : ℕ) (scored : List (Track × ℚ)) (t : Track) (hs : SamplerSub sampler)
    (ht : t ∈ select_tracks sampler N scored) : ∃ s, (t, s) ∈ scored := by
  unfold select_tracks at ht
  have hsort : ∀ e : Track × ℚ, e ∈ sortDesc scored → e ∈ scored :=
    fun e he => (sortDesc_perm scored).mem_iff.mp he
  rcases List.mem_append.mp ht with h | h
  · obtain ⟨e, he, hfst⟩ := List.mem_map.mp h
    refine ⟨e.2, ?_⟩
    have : e ∈ scored := hsort e (List.mem_of_mem_take he)
    rwa [show (t, e.2) = e from by rw [← hfst]] 
  · have h2 := hs _ _ t h
    have h3 := List.mem_of_mem_filter h2
    obtain ⟨e, he, hfst⟩ := List.mem_map.mp h3
    refine ⟨e.2, ?_⟩
    have : e ∈ scored := hsort e (List.mem_of_mem_drop he)
    rwa [show (t, e.2) = e from by rw [← hfst]]

/-- C2: an excluded track — already swiped by the user, owned by the user,
or private — receives the exclusion sentinel `-1` from `score_track`, and
never appears in the list returned by `get_recommendations`: not in the
top-by-score block and not in the random explore fill. -/
theorem C2_exclusion (now : ℤ) (start : ℚ) (times : ℕ → ℚ)
    (sampler : List Track → ℕ → List Track) (p : Preferences)
    (all_tracks : List Track) (N : ℕ) (t : Track)
    (hs : SamplerSub sampler)
    (hex : t.track_id ∈ p.swiped_track_ids ∨ t.user_id = some p.user_id ∨
           t.isPrivate = true) :
    score_track t p now = -1 ∧
    t ∉ get_recommendations now start times sampler p all_tracks N := by
  have hscore : score_track t p now = -1 := by
    unfold score_track
    split_ifs with a b c
    · rfl
    · rfl
    · rfl
    · rcases hex with h | h | h
      · exact absurd h a
      · exact absurd h b
      · exact absurd h c
  refine ⟨hscore, ?_⟩
  intro hmem
  obtain ⟨s, hsc⟩ :=
    mem_select_tracks sampler N (scoreTracksLoop now times start 3 p all_tracks 0)
      t hs hmem
  obtain ⟨hseq, hsnn⟩ :=
    scoreTracksLoop_mem now times start 3 p all_tracks 0 t s hsc
  rw [hseq, hscore] at hsnn
  norm_num at hsnn

/-- The take-prefix sampler returns elements of its input. -/
theorem takeSampler_sub : SamplerSub takeSampler :=
  fun _ _ _ hx => List.mem_of_mem_take hx

/-- The take-prefix sampler returns the requested number of elements when
feasible. -/
theorem takeSampler_len : SamplerLen takeSampler := by
  intro l k hk
  simp [takeSampler, hk]

/-- C2 (witness): a private track is scored `-1` and is absent from the
recommendations computed over a candidate list containing it. -/
theorem C2_exclusion_witness :
    score_track ⟨"pv", some "owner", some "Trap", none, none, true, 0, 0, none⟩
        ⟨[], [], ⟨125, false⟩, [], [], "u"⟩ 0 = -1 ∧
    ⟨"pv", some "owner", some "Trap", none, none, true, 0, 0, none⟩ ∉
      get_recommendations 0 0 (fun _ => 0) takeSampler
        ⟨[], [], ⟨125, false⟩, [], [], "u"⟩
        [⟨"pv", some "owner", some "Trap", none, none, true, 0, 0, none⟩] 20 :=
  C2_exclusion 0 0 (fun _ => 0) takeSampler ⟨[], [], ⟨125, false⟩, [], [], "u"⟩
    [⟨"pv", some "owner", some "Trap", none, none, true, 0, 0, none⟩] 20
    ⟨"pv", some "owner", some "Trap", none, none, true, 0, 0, none⟩
    takeSampler_sub (Or.inr (Or.inr rfl))

/-- The tracks kept by the scoring loop form a sublist of the candidate
list. -/
theorem scoreTracksLoop_fst_sublist (now : ℤ) (times : ℕ → ℚ)
    (start budget : ℚ) (p : Preferences) :
    ∀ (ts : List Track) (i : ℕ),
      ((scoreTracksLoop now times start budget p ts i).map Prod.fst).Sublist ts := by
  intro ts
  induction ts with
  | nil => intro i; simp [scoreTracksLoop]
  | cons hd tl ih =>
    intro i
    rw [scoreTracksLoop]
    split
    · simp
    · dsimp only
      split
      · simp only [List.map_cons]
        exact (ih (i + 1)).cons₂ hd
      · exact (ih (i + 1)).cons hd

/-- C4: with a sampler that honours the requested sample size (as
`random.sample` does), `get_recommendations` returns at most
`max_recommendations` tracks; and when the scoring loop keeps at least
`max_recommendations` candidates (distinct candidates, all receiving a
nonnegative score), it returns exactly `max_recommendations` tracks —
the top `int(N * 0.8)` by score plus the random fill. -/
theorem C4_batch_size (now : ℤ) (start : ℚ) (times : ℕ → ℚ)
    (sampler : List Track → ℕ → List Track) (p : Preferences)
    (all_tracks : List Track) (N : ℕ)
    (hlen : SamplerLen sampler) (hnd : all_tracks.Nodup) :
    (get_recommendations now start times sampler p all_tracks N).length ≤ N ∧
    (N ≤ (scoreTracksLoop now times start 3 p all_tracks 0).length →
      (get_recommendations now start times sampler p all_tracks N).length = N) := by
  have hsubl := scoreTracksLoop_fst_sublist now times start 3 p all_tracks 0
  simp only [get_recommendations, select_tracks]
  set scored := scoreTracksLoop now times start 3 p all_tracks 0 with hscored
  set sorted := sortDesc scored with hsorted
  have hperm := sortDesc_perm scored
  have hlensort : sorted.length = scored.length := hperm.length_eq
  set tc := min scored.length N * 4 / 5 with htc
  have htc_min : tc ≤ min scored.length N := by
    have h5 := Nat.div_mul_le_self (min scored.length N * 4) 5
    omega
  have hminl : min scored.length N ≤ scored.length := min_le_left _ _
  have hminr : min scored.length N ≤ N := min_le_right _ _
  set top_tracks := (sorted.take tc).map Prod.fst with htop
  have htop_len : top_tracks.length = tc := by
    rw [htop, List.length_map, List.length_take]
    omega
  set remaining :=
    ((sorted.drop tc).map Prod.fst).filter (fun t => decide (t ∉ top_tracks))
    with hrem
  have hsample_len :
      (sampler remaining (min (N - tc) remaining.length)).length =
        min (N - tc) remaining.length :=
    hlen _ _ (min_le_right _ _)
  constructor
  · rw [List.length_append, htop_len, hsample_len]
    omega
  · intro hN
    have hnd2 : (scored.map Prod.fst).Nodup := hnd.sublist hsubl
    have hnd3 : (sorted.map Prod.fst).Nodup :=
      ((hperm.map Prod.fst).nodup_iff).mpr hnd2
    have hkeep : ∀ x ∈ (sorted.drop tc).map Prod.fst,
        decide (x ∉ top_tracks) = true := by
      intro x hx
      rw [decide_eq_true_eq]
      intro hxt
      have hsplit : sorted.map Prod.fst =
          top_tracks ++ (sorted.drop tc).map Prod.fst := by
        rw [htop, ← List.map_append, List.take_append_drop]
      rw [hsplit] at hnd3
      exact (List.nodup_append.mp hnd3).2.2 hxt hx
    have hrem_eq : remaining = (sorted.drop tc).map Prod.fst :=
      List.filter_eq_self.mpr hkeep
    have hrem_len : remaining.length = scored.length - tc := by
      rw [hrem_eq, List.length_map, List.length_drop, hlensort]
    rw [List.length_append, htop_len, hsample_len, hrem_len]
    omega

/-- C4 (witness): one distinct candidate with a nonnegative score and a
requested batch of one yields exactly one recommendation (and never more
than one). -/
theorem C4_batch_size_witness :
    (get_recommendations 0 0 (fun _ => 0) takeSampler
        ⟨[], [], ⟨125, false⟩, [], [], "u"⟩
        [⟨"x", some "owner", some "Trap", none, none, false, 3, 14, none⟩]
        1).length ≤ 1 ∧
    (1 ≤ (scoreTracksLoop 0 (fun _ => 0) 0 3
        ⟨[], [], ⟨125, false⟩, [], [], "u"⟩
        [⟨"x", some "owner", some "Trap", none, none, false, 3, 14, none⟩]
        0).length →
      (get_recommendations 0 0 (fun _ => 0) takeSampler
        ⟨[], [], ⟨125, false⟩, [], [], "u"⟩
        [⟨"x", some "owner", some "Trap", none, none, false, 3, 14, none⟩]
        1).length = 1) :=
  C4_batch_size 0 0 (fun _ => 0) takeSampler
    ⟨[], [], ⟨125, false⟩, [], [], "u"⟩
    [⟨"x", some "owner", some "Trap", none, none, false, 3, 14, none⟩] 1
    takeSampler_len (by simp)

/-- If the clock stays within the budget strictly before iteration `j` and
exceeds it at iteration `j`, the scoring loop scores exactly the first
`j - i` candidates it is given (starting from iteration index `i ≤ j`). -/
theorem scoreTracksLoop_trunc (now : ℤ) (times : ℕ → ℚ) (start : ℚ)
    (p : Preferences) (j : ℕ)
    (hle : ∀ k, k < j → times k - start ≤ 3) (hgt : 3 < times j - start) :
    ∀ (ts : List Track) (i : ℕ), i ≤ j →
      scoreTracksLoop now times start 3 p ts i =
        pyScored now p (ts.take (j - i)) := by
  intro ts
  induction ts with
  | nil => intro i _; simp [scoreTracksLoop, pyScored]
  | cons hd tl ih =>
    intro i hi
    rw [scoreTracksLoop]
    rcases Nat.eq_or_lt_of_le hi with rfl | hlt
    · rw [if_pos hgt, Nat.sub_self]
      simp [pyScored]
    · rw [if_neg (not_lt.mpr (hle i hlt))]
      have h1 : j - i = (j - (i + 1)) + 1 := by omega
      rw [h1, List.take_succ_cons]
      dsimp only
      rw [ih (i + 1) (by omega)]
      simp only [pyScored, List.foldr_cons]

/-- C8: on any trace of the clock oracle in which the elapsed time first
exceeds the 3-second budget at iteration `j` of the scoring loop,
`get_recommendations` stops scoring at that budget check and returns
normally: its output is exactly the selection computed from the scores of
the first `j` candidates (the function is total, so no timeout error can
be raised). -/
theorem C8_time_budget (now : ℤ) (start : ℚ) (times : ℕ → ℚ)
    (sampler : List Track → ℕ → List Track) (p : Preferences)
    (all_tracks : List Track) (N j : ℕ)
    (hj : j < all_tracks.length)
    (hle : ∀ k, k < j → times k - start ≤ 3) (hgt : 3 < times j - start) :
    get_recommendations now start times sampler p all_tracks N =
      select_tracks sampler N (pyScored now p (all_tracks.take j)) := by
  unfold get_recommendations
  rw [scoreTracksLoop_trunc now times start p j hle hgt all_tracks 0 (Nat.zero_le j),
    Nat.sub_zero]

/-- C8 (witness): with a clock that jumps past the budget at the second
iteration, only the first of two candidates is scored and the call still
returns a selection (here: that one candidate). -/
theorem C8_time_budget_witness :
    get_recommendations 0 0 (fun k => if k = 0 then 0 else 100) takeSampler
        ⟨[], [], ⟨125, false⟩, [], [], "u"⟩
        [⟨"x", some "owner", some "Trap", none, none, false, 3, 14, none⟩,
         ⟨"y", some "owner", some "Trap", none, none, false, 0, 0, none⟩] 20 =
      select_tracks takeSampler 20
        (pyScored 0 ⟨[], [], ⟨125, false⟩, [], [], "u"⟩
          ([⟨"x", some "owner", some "Trap", none, none, false, 3, 14, none⟩,
            ⟨"y", some "owner", some "Trap", none, none, false, 0, 0, none⟩].take 1)) :=
  C8_time_budget 0 0 (fun k => if k = 0 then 0 else 100) takeSampler
    ⟨[], [], ⟨125, false⟩, [], [], "u"⟩
    [⟨"x", some "owner", some "Trap", none, none, false, 3, 14, none⟩,
     ⟨"y", some "owner", some "Trap", none, none, false, 0, 0, none⟩] 20 1
    (by norm_num)
    (by
      intro k hk
      have hk0 : k = 0 := by omega
      subst hk0
      norm_num)
    (by norm_num)

/-- The seed of a left fold by `max` bounds from below. -/
theorem le_foldl_max (b : ℚ) (l : List ℚ) : b ≤ l.foldl max b := by
  induction l generalizing b with
  | nil => exact le_refl b
  | cons x xs ih => exact le_trans (le_max_left b x) (ih (max b x))

/-- Every member of a list bounds a left fold by `max` from below. -/
theorem mem_le_foldl_max (l : List ℚ) : ∀ b x : ℚ, x ∈ l → x ≤ l.foldl max b := by
  induction l with
  | nil => intro b x hx; cases hx
  | cons y ys ih =>
    intro b x hx
    rcases List.mem_cons.mp hx with rfl | hmem
    · exact le_trans (le_max_right b x) (le_foldl_max (max b x) ys)
    · exact ih (max b y) x hmem

/-- `maxVal` dominates every value of the association list. -/
theorem le_maxVal (m : List (String × ℚ)) (e : String × ℚ) (he : e ∈ m) :
    e.2 ≤ maxVal m := by
  cases m with
  | nil => cases he
  | cons f rest =>
    rw [maxVal]
    rcases List.mem_cons.mp he with rfl | hmem
    · exact le_foldl_max e.2 (rest.map (fun x => x.2))
    · exact mem_le_foldl_max _ f.2 e.2 (List.mem_map.mpr ⟨e, hmem, rfl⟩)

/-- Normalisation sends a map with nonnegative values into the `[0, 10]`
band — the invariant `score_track` relies on. -/
theorem normalize10_bounded (m : List (String × ℚ))
    (hm : ∀ e ∈ m, 0 ≤ e.2) : PrefBounded (normalize10 m) := by
  intro e he
  unfold normalize10 at he
  by_cases h0 : m = []
  · rw [if_pos h0] at he
    rw [h0] at he
    cases he
  · rw [if_neg h0] at he
    dsimp only at he
    by_cases hpos : 0 < maxVal m
    · rw [if_pos hpos] at he
      obtain ⟨f, hf, hfe⟩ := List.mem_map.mp he
      subst hfe
      have hnn := hm f hf
      have hle := le_maxVal m f hf
      constructor
      · exact mul_nonneg (div_nonneg hnn (le_of_lt hpos)) (by norm_num)
      · rw [div_mul_eq_mul_div, div_le_iff hpos]
        nlinarith
    · rw [if_neg hpos] at he
      have hnn := hm e he
      have hle := le_maxVal m e he
      have hmx : maxVal m ≤ 0 := not_lt.mp hpos
      exact ⟨hnn, by linarith⟩

/-- `addScore` with a nonnegative increment preserves nonnegativity of the
values. -/
theorem addScore_nonneg (m : List (String × ℚ)) (k : String) (v : ℚ)
    (hv : 0 ≤ v) (hm : ∀ e ∈ m, 0 ≤ e.2) : ∀ e ∈ addScore m k v, 0 ≤ e.2 := by
  induction m with
  | nil =>
    intro e he
    rw [addScore] at he
    rcases List.mem_cons.mp he with rfl | h
    · exact hv
    · cases h
  | cons f rest ih =>
    intro e he
    rw [addScore] at he
    split at he
    · rcases List.mem_cons.mp he with rfl | h
      · have := hm f (List.mem_cons_self f rest)
        dsimp only
        linarith
      · exact hm e (List.mem_cons_of_mem f h)
    · rcases List.mem_cons.mp he with rfl | h
      · exact hm e (List.mem_cons_self e rest)
      · exact ih (fun g hg => hm g (List.mem_cons_of_mem f hg)) e h

/-- A fold of guarded nonnegative `addScore` updates preserves
nonnegativity of the values. -/
theorem foldl_addScore_nonneg (w : ℚ) (hw : 0 ≤ w)
    (items : List (String × ℕ)) (m0 : List (String × ℚ))
    (hm0 : ∀ e ∈ m0, 0 ≤ e.2) :
    ∀ e ∈ items.foldl
      (fun m gc => if gc.1 ≠ "" then addScore m gc.1 ((gc.2 : ℚ) * w) else m) m0,
      0 ≤ e.2 := by
  induction items generalizing m0 with
  | nil => exact hm0
  | cons gc rest ih =>
    rw [List.foldl_cons]
    apply ih
    split
    · exact addScore_nonneg m0 gc.1 ((gc.2 : ℚ) * w) (by positivity) hm0
    · exact hm0

/-- A fold of guarded `addScore` updates with the fixed increment 3 (the
explicit profile genres) preserves nonnegativity of the values. -/
theorem foldl_addGenre_nonneg (gs : List String) (m0 : List (String × ℚ))
    (hm0 : ∀ e ∈ m0, 0 ≤ e.2) :
    ∀ e ∈ gs.foldl (fun m g => if g ≠ "" then addScore m g 3 else m) m0,
      0 ≤ e.2 := by
  induction gs generalizing m0 with
  | nil => exact hm0
  | cons g rest ih =>
    rw [List.foldl_cons]
    apply ih
    split
    · exact addScore_nonneg m0 g 3 (by norm_num) hm0
    · exact hm0

/-- The genre preference map built by the aggregation lies in the
normalised `[0, 10]` band, so the `PrefBounded` hypothesis of the score
bounds holds for real profiles. -/
theorem get_user_genre_preferences_bounded (tracks : String → Option Track)
    (rs ls : List String) (profile : UserProfile) :
    PrefBounded (get_user_genre_preferences tracks rs ls profile) := by
  unfold get_user_genre_preferences
  apply normalize10_bounded
  split_ifs with h
  · intro e he
    obtain ⟨g, _, hge⟩ := List.mem_map.mp he
    subst hge
    norm_num
  · apply foldl_addGenre_nonneg
    apply foldl_addScore_nonneg (3 / 2) (by norm_num)
    apply foldl_addScore_nonneg 2 (by norm_num)
    intro e he
    cases he

/-- The mood preference map built by the aggregation also lies in the
normalised `[0, 10]` band. -/
theorem get_user_mood_preferences_bounded (tracks : String → Option Track)
    (rs : List String) (profile : UserProfile) :
    PrefBounded (get_user_mood_preferences tracks rs profile) := by
  unfold get_user_mood_preferences
  dsimp only
  apply normalize10_bounded
  have hs1 : ∀ e ∈ (counterItems ((rs.dedup.take 50).filterMap
      (fun tid => (tracks tid).bind (fun t => t.mood)))).foldl
      (fun m mc => if mc.1 ≠ "" then addScore m mc.1 ((mc.2 : ℚ) * 2) else m) [],
      0 ≤ e.2 := by
    apply foldl_addScore_nonneg 2 (by norm_num)
    intro e he
    cases he
  cases hm : profile.musicalMood with
  | none => simp only [hm]; exact hs1
  | some um =>
    simp only [hm]
    split
    · exact addScore_nonneg _ um 5 (by norm_num) hs1
    · exact hs1
